import Mathlib

/-!
Verification development for the stasis idle manager.

The definitions below are a shallow embedding of the idle state engine of
the repository: `LegacyIdleTimer` and its operations from
`src/core/legacy/timer.rs` and `src/core/legacy/state.rs`, the pre-suspend
runner from `src/core/pre_suspend.rs`, the action dispatch shape from
`src/core/actions.rs`, and the compositor event handler from
`src/wayland.rs`.

Modelling conventions:
- `Instant` is a natural number of seconds (`now` is passed explicitly to
  every operation that calls `Instant::now()`; the several calls inside one
  Rust method are identified, as they differ by microseconds only).
- `Duration` values are natural numbers of seconds.
- `Vec<bool>` is `List Bool`; `HashSet<String>` is a duplicate-free
  `List String` maintained by `insertKind`.
- `HashMap<String, IdleAction>` is an association list; the claims never
  depend on iteration order.
- Spawned shell commands and the synchronous pre-suspend run are recorded
  as `Effect` values instead of being executed; brightness capture is an
  oracle argument `cap : Option BrightnessState` standing for the result
  of `capture_brightness()`.
-/

namespace Stasis

/-- ActionKind from `src/config/model.rs`. -/
inductive IdleActionKind where
  | lockScreen
  | suspend
  | dpms
  | brightness
  | custom
  deriving DecidableEq, Repr, Inhabited

/-- Display implementation of `IdleActionKind` (`impl fmt::Display`). -/
def kindStr : IdleActionKind → String
  | .lockScreen => "lock_screen"
  | .suspend => "suspend"
  | .dpms => "dpms"
  | .brightness => "brightness"
  | .custom => "custom"

/-- IdleAction from `src/config/model.rs`. -/
structure IdleAction where
  timeout_seconds : Nat
  command : String
  kind : IdleActionKind
  deriving DecidableEq, Repr, Inhabited

/-- IdleConfig from `src/config/model.rs` (fields the timer reads). -/
structure IdleConfig where
  actions : List (String × IdleAction)
  resume_command : Option String
  pre_suspend_command : Option String
  debounce_seconds : Nat
  deriving DecidableEq, Repr, Inhabited

/-- BrightnessState from `src/core/brightness.rs`: a device name and a raw value. -/
structure BrightnessState where
  device : String
  value : Nat
  deriving DecidableEq, Repr, Inhabited

/-- LegacyIdleTimer state from `src/core/legacy/timer.rs` (task handles and
the start time are omitted: they carry no claim-relevant state). -/
structure LegacyIdleTimer where
  cfg : IdleConfig
  last_activity : Nat
  debounce_until : Option Nat
  idle_debounce_until : Option Nat
  paused : Bool
  manually_paused : Bool
  resume_command : Option String
  previous_brightness : Option BrightnessState
  suspend_occurred : Bool
  is_idle_flags : List Bool
  active_kinds : List String
  on_ac : Bool
  actions : List IdleAction
  ac_actions : List IdleAction
  battery_actions : List IdleAction
  pre_suspend_command : Option String
  compositor_managed : Bool
  deriving DecidableEq, Repr, Inhabited

/-- Externally visible side effects of a timer operation: a dispatched
ladder action, the synchronous pre-suspend run, a scheduled resume
command, and a brightness restore. -/
inductive Effect where
  | dispatched (i : Nat) (a : IdleAction)
  | ranPreSuspend (cmd : String)
  | scheduledResume (cmd : String)
  | restoredBrightness (b : BrightnessState)
  deriving DecidableEq, Repr

/-- The `starts_with` test on config keys, as a computable test over the
character lists of the strings. -/
def strStartsWith (s p : String) : Bool := p.data.isPrefixOf s.data

/-- Projection of an effect list to the dispatched actions, with indices. -/
def dispatchList (effs : List Effect) : List (Nat × IdleAction) :=
  effs.filterMap fun e =>
    match e with
    | .dispatched i a => some (i, a)
    | _ => none

/-- HashSet::insert on the kind-string set. -/
def insertKind (ks : List String) (k : String) : List String :=
  if ks.contains k then ks else k :: ks

namespace LegacyIdleTimer

/-- Filter of `cfg.actions` that keeps the default (non `ac.`, non `battery.`) ladder. -/
def defaultActionsOf (cfg : IdleConfig) : List IdleAction :=
  (cfg.actions.filter fun p =>
    !(strStartsWith p.1 "ac.") && !(strStartsWith p.1 "battery.")).map (·.2)

/-- Filter of `cfg.actions` that keeps the `ac.` ladder. -/
def acActionsOf (cfg : IdleConfig) : List IdleAction :=
  (cfg.actions.filter fun p => strStartsWith p.1 "ac.").map (·.2)

/-- Filter of `cfg.actions` that keeps the `battery.` ladder. -/
def batteryActionsOf (cfg : IdleConfig) : List IdleAction :=
  (cfg.actions.filter fun p => strStartsWith p.1 "battery.").map (·.2)

/-- LegacyIdleTimer::new (timer.rs). `on_ac` is hardcoded `true` there. -/
def new (cfg : IdleConfig) (now : Nat) : LegacyIdleTimer :=
  let onAc := true
  let acA := acActionsOf cfg
  let acB := batteryActionsOf cfg
  let acts :=
    if !acA.isEmpty || !acB.isEmpty then
      if onAc then acA else acB
    else defaultActionsOf cfg
  { cfg := cfg
    last_activity := now
    debounce_until := none
    idle_debounce_until := none
    paused := false
    manually_paused := false
    resume_command := cfg.resume_command
    previous_brightness := none
    suspend_occurred := false
    is_idle_flags := List.replicate acts.length false
    active_kinds := []
    on_ac := onAc
    actions := acts
    ac_actions := acA
    battery_actions := acB
    pre_suspend_command := cfg.pre_suspend_command
    compositor_managed := false }

/-- LegacyIdleTimer::elapsed_idle (timer.rs). -/
def elapsed_idle (now : Nat) (t : LegacyIdleTimer) : Nat :=
  match t.debounce_until with
  | some u => if now < u then 0 else now - t.last_activity
  | none => now - t.last_activity

/-- The body of `trigger_pre_suspend(false, false)`, reached from action
dispatch when a Suspend-kind action emits an `ActionRequest::PreSuspend`
(timer.rs lines 142-144, 215-217, 262-264): sets `suspend_occurred` and
runs the configured pre-suspend command synchronously. With
`rewind_timers == false` no further state is touched. -/
def preSuspendFromDispatch (t : LegacyIdleTimer) : LegacyIdleTimer × List Effect :=
  let t1 := { t with suspend_occurred := true }
  match t1.pre_suspend_command with
  | some c => (t1, [Effect.ranPreSuspend c])
  | none => (t1, [])

/-- The trigger block shared by `check_idle` and `trigger_instant_actions`
(timer.rs lines 122-156 and 202-228): set the fired flag, insert the kind
into `active_kinds`, capture brightness for a first Brightness action, then
dispatch the prepared requests (a Suspend-kind action first runs
`trigger_pre_suspend(false, false)`). -/
def dispatchAction (cap : Option BrightnessState) (i : Nat) (a : IdleAction)
    (t : LegacyIdleTimer) : LegacyIdleTimer × List Effect :=
  let t1 := { t with is_idle_flags := t.is_idle_flags.set i true
                     active_kinds := insertKind t.active_kinds (kindStr a.kind) }
  let t2 :=
    if a.kind = IdleActionKind.brightness ∧ t1.previous_brightness = none then
      { t1 with previous_brightness := cap }
    else t1
  match a.kind with
  | .suspend =>
    ((preSuspendFromDispatch t2).1,
      Effect.dispatched i a :: (preSuspendFromDispatch t2).2)
  | _ => (t2, [Effect.dispatched i a])

/-- The instant actions collected by `trigger_instant_actions` (timer.rs
lines 115-120): indexed actions with `timeout_seconds == 0` whose fired
flag is still false. -/
def instantsToFire (t : LegacyIdleTimer) : List (Nat × IdleAction) :=
  t.actions.enum.filter fun p =>
    p.2.timeout_seconds == 0 && !(t.is_idle_flags.getD p.1 false)

/-- The dispatch loop of `trigger_instant_actions` over the pre-collected
list (timer.rs lines 122-156). -/
def fireInstants (cap : Option BrightnessState) :
    List (Nat × IdleAction) → LegacyIdleTimer → LegacyIdleTimer × List Effect
  | [], t => (t, [])
  | (i, a) :: rest, t =>
    let (t1, e1) := dispatchAction cap i a t
    let (t2, e2) := fireInstants cap rest t1
    (t2, e1 ++ e2)

/-- LegacyIdleTimer::trigger_instant_actions (timer.rs). -/
def trigger_instant_actions (cap : Option BrightnessState)
    (t : LegacyIdleTimer) : LegacyIdleTimer × List Effect :=
  fireInstants cap (instantsToFire t) t

/-- LegacyIdleTimer::init (timer.rs): fires the instant actions of the
startup ladder. -/
def init (cap : Option BrightnessState) (t : LegacyIdleTimer) :
    LegacyIdleTimer × List Effect :=
  trigger_instant_actions cap t

/-- LegacyIdleTimer::apply_reset (state.rs lines 20-47). -/
def apply_reset (now : Nat) (t : LegacyIdleTimer) : LegacyIdleTimer × List Effect :=
  let wasIdle := t.is_idle_flags.any id
  let brightnessEffs : List Effect :=
    if wasIdle then
      match t.previous_brightness with
      | some b => [Effect.restoredBrightness b]
      | none => []
    else []
  let resumeEffs : List Effect :=
    if wasIdle && t.suspend_occurred then
      match t.resume_command with
      | some c => [Effect.scheduledResume c]
      | none => []
    else []
  ({ t with last_activity := now
            is_idle_flags := t.is_idle_flags.map fun _ => false
            idle_debounce_until := none
            suspend_occurred := if wasIdle then false else t.suspend_occurred
            active_kinds := []
            previous_brightness := none },
   brightnessEffs ++ resumeEffs)

/-- LegacyIdleTimer::reset (state.rs lines 11-17): apply_reset plus arming
the activity debounce window. -/
def reset (now : Nat) (t : LegacyIdleTimer) : LegacyIdleTimer × List Effect :=
  let (t1, effs) := apply_reset now { t with last_activity := now }
  ({ t1 with debounce_until := some (now + t1.cfg.debounce_seconds) }, effs)

/-- LegacyIdleTimer::reset_state_after_resume (state.rs lines 92-114). -/
def reset_state_after_resume (now : Nat) (t : LegacyIdleTimer) :
    LegacyIdleTimer × List Effect :=
  let wasIdle := t.is_idle_flags.any id
  let brightnessEffs : List Effect :=
    if wasIdle then
      match t.previous_brightness with
      | some b => [Effect.restoredBrightness b]
      | none => []
    else []
  let resumeEffs : List Effect :=
    if wasIdle then
      match t.resume_command with
      | some c => [Effect.scheduledResume c]
      | none => []
    else []
  ({ t with last_activity := now
            is_idle_flags := t.is_idle_flags.map fun _ => false
            active_kinds := []
            previous_brightness := none },
   brightnessEffs ++ resumeEffs)

/-- LegacyIdleTimer::pause (state.rs lines 64-73). -/
def pause (manually : Bool) (t : LegacyIdleTimer) : LegacyIdleTimer :=
  if manually then
    { t with manually_paused := true, paused := false }
  else if !t.manually_paused then
    { t with paused := true }
  else t

/-- LegacyIdleTimer::resume (state.rs lines 76-89). -/
def resume (manually : Bool) (now : Nat) (t : LegacyIdleTimer) :
    LegacyIdleTimer × List Effect :=
  if manually then
    if t.manually_paused then
      reset_state_after_resume now { t with manually_paused := false, paused := false }
    else (t, [])
  else if !t.manually_paused && t.paused then
    reset_state_after_resume now { t with paused := false }
  else (t, [])

/-- The per-index loop of `check_idle` (timer.rs lines 176-230), walking
the enumerated ladder. -/
def checkIdleGo (cap : Option BrightnessState) (now elapsed : Nat) :
    List (Nat × IdleAction) → LegacyIdleTimer → LegacyIdleTimer × List Effect
  | [], t => (t, [])
  | (i, a) :: rest, t =>
    if a.timeout_seconds == 0 || t.is_idle_flags.getD i false
        || t.active_kinds.contains (kindStr a.kind) then
      checkIdleGo cap now elapsed rest t
    else if a.timeout_seconds ≤ elapsed then
      match t.idle_debounce_until with
      | some u =>
        if now < u then (t, [])
        else
          let t1 := { t with idle_debounce_until := none }
          let (t2, e1) := dispatchAction cap i a t1
          let (t3, e2) := checkIdleGo cap now elapsed rest t2
          (t3, e1 ++ e2)
      | none =>
        ({ t with idle_debounce_until := some (now + t.cfg.debounce_seconds) }, [])
    else
      checkIdleGo cap now elapsed rest t

/-- LegacyIdleTimer::check_idle (timer.rs lines 160-233). -/
def check_idle (cap : Option BrightnessState) (now : Nat)
    (t : LegacyIdleTimer) : LegacyIdleTimer × List Effect :=
  if t.paused then (t, [])
  else
    match t.debounce_until with
    | some u =>
      if now < u then (t, [])
      else
        let t1 := { t with debounce_until := none }
        checkIdleGo cap now (elapsed_idle now t1) t1.actions.enum t1
    | none =>
      checkIdleGo cap now (elapsed_idle now t) t.actions.enum t

/-- The per-index loop of `trigger_idle` (timer.rs lines 255-278): fires
every not-yet-fired action without touching `active_kinds` and without
capturing brightness. -/
def triggerIdleGo :
    List (Nat × IdleAction) → LegacyIdleTimer → LegacyIdleTimer × List Effect
  | [], t => (t, [])
  | (i, a) :: rest, t =>
    if t.is_idle_flags.getD i false then triggerIdleGo rest t
    else
      let t1 := { t with is_idle_flags := t.is_idle_flags.set i true }
      let (t2, e1) :=
        match a.kind with
        | .suspend =>
          let (t3, e) := preSuspendFromDispatch t1
          (t3, Effect.dispatched i a :: e)
        | _ => (t1, [Effect.dispatched i a])
      let (t4, e2) := triggerIdleGo rest t2
      (t4, e1 ++ e2)

/-- LegacyIdleTimer::trigger_idle (timer.rs lines 254-279). -/
def trigger_idle (t : LegacyIdleTimer) : LegacyIdleTimer × List Effect :=
  triggerIdleGo t.actions.enum t

/-- LegacyIdleTimer::trigger_pre_suspend (timer.rs lines 281-298). -/
def trigger_pre_suspend (cap : Option BrightnessState)
    (rewind_timers manual : Bool) (now : Nat) (t : LegacyIdleTimer) :
    LegacyIdleTimer × List Effect :=
  let t1 := if manual then t else { t with suspend_occurred := true }
  match t1.pre_suspend_command with
  | none => (t1, [])
  | some c =>
    if rewind_timers then
      let t2 := { t1 with last_activity := now
                          is_idle_flags := t1.is_idle_flags.map fun _ => false
                          active_kinds := [] }
      let (t3, e) := trigger_instant_actions cap t2
      (t3, Effect.ranPreSuspend c :: e)
    else (t1, [Effect.ranPreSuspend c])

/-- LegacyIdleTimer::update_power_source (timer.rs lines 236-252). -/
def update_power_source (cap : Option BrightnessState) (onAc : Bool)
    (t : LegacyIdleTimer) : LegacyIdleTimer × List Effect :=
  if t.on_ac = onAc then (t, [])
  else
    let t1 := { t with on_ac := onAc }
    let (t2, e1) :=
      match t1.previous_brightness with
      | some b =>
        ({ t1 with previous_brightness := none }, [Effect.restoredBrightness b])
      | none => (t1, [])
    let acts := if onAc then t2.ac_actions else t2.battery_actions
    let t3 := { t2 with actions := acts
                        is_idle_flags := List.replicate acts.length false
                        active_kinds := [] }
    let (t4, e2) := trigger_instant_actions cap t3
    (t4, e1 ++ e2)

/-- LegacyIdleTimer::update_from_config (timer.rs lines 315-359). -/
def update_from_config (cap : Option BrightnessState) (cfg : IdleConfig)
    (now : Nat) (t : LegacyIdleTimer) : LegacyIdleTimer × List Effect :=
  let acA := acActionsOf cfg
  let acB := batteryActionsOf cfg
  let acts :=
    if !acA.isEmpty || !acB.isEmpty then
      if t.on_ac then acA else acB
    else defaultActionsOf cfg
  let t1 := { t with cfg := cfg
                     ac_actions := acA
                     battery_actions := acB
                     actions := acts
                     is_idle_flags := List.replicate acts.length false
                     resume_command := cfg.resume_command
                     pre_suspend_command := cfg.pre_suspend_command
                     last_activity := now
                     active_kinds := []
                     previous_brightness := none }
  trigger_instant_actions cap t1

/-- LegacyIdleTimer::shortest_timeout (timer.rs lines 300-307), in seconds. -/
def shortest_timeout (t : LegacyIdleTimer) : Nat :=
  match ((t.actions.filter fun a => 0 < a.timeout_seconds).map
      fun a => a.timeout_seconds).min? with
  | some m => m
  | none => 60

/-- LegacyIdleTimer::set_compositor_managed (timer.rs line 309). -/
def set_compositor_managed (v : Bool) (t : LegacyIdleTimer) : LegacyIdleTimer :=
  { t with compositor_managed := v }

/-- LegacyIdleTimer::mark_all_idle (timer.rs line 313). -/
def mark_all_idle (t : LegacyIdleTimer) : LegacyIdleTimer :=
  { t with is_idle_flags := t.is_idle_flags.map fun _ => true }

end LegacyIdleTimer

/-- One tick of the idle monitor loop spawned by `spawn_idle_task`
(timer.rs lines 373-387): `check_idle` runs only when the timer is not
manually paused. -/
def idleTick (cap : Option BrightnessState) (now : Nat)
    (t : LegacyIdleTimer) : LegacyIdleTimer × List Effect :=
  if t.manually_paused then (t, []) else t.check_idle cap now

/-- WaylandIdleData::is_inhibited (wayland.rs lines 50-52). -/
def isInhibited (respect_inhibitors : Bool) (active_inhibitors : Nat) : Bool :=
  respect_inhibitors && decide (0 < active_inhibitors)

/-- Compositor idle notification events (ext_idle_notification_v1). -/
inductive IdleEvent where
  | idled
  | resumed
  deriving DecidableEq, Repr

/-- Dispatch handler for `ExtIdleNotificationV1` events (wayland.rs lines
98-135): skip when inhibited, return early when the timer is compositor
managed, otherwise Idled runs `mark_all_idle` then `trigger_idle` and
Resumed runs `reset`. -/
def handleIdleEvent (respect_inhibitors : Bool) (active_inhibitors : Nat)
    (now : Nat) (ev : IdleEvent) (t : LegacyIdleTimer) :
    LegacyIdleTimer × List Effect :=
  if isInhibited respect_inhibitors active_inhibitors then (t, [])
  else if t.compositor_managed then (t, [])
  else
    match ev with
    | .idled => (t.mark_all_idle).trigger_idle
    | .resumed => t.reset now

/-- The compositor binding step of `wayland::setup` (wayland.rs lines
195-206): once the idle notifier and seat are bound, a notification is
armed with `shortest_timeout` and the timer is told it is compositor
managed. -/
def bindCompositor (t : LegacyIdleTimer) : LegacyIdleTimer × Nat :=
  (t.set_compositor_managed true, t.shortest_timeout)

/-! ## Derived predicates used by the claims -/

/-- Kind string of the ladder action at index `i`. -/
def kindAt (t : LegacyIdleTimer) (i : Nat) : String :=
  kindStr (t.actions.getD i default).kind

/-- Fired flag of the ladder action at index `i`. -/
def firedAt (t : LegacyIdleTimer) (i : Nat) : Bool :=
  t.is_idle_flags.getD i false

/-- Kind uniqueness (spec invariant I2 and property P2): at most one action
per kind has its fired flag set, stated as injectivity of the index among
fired actions of equal kind. -/
def KindUnique (t : LegacyIdleTimer) : Prop :=
  ∀ i j, i < t.actions.length → j < t.actions.length →
    firedAt t i = true → firedAt t j = true → kindAt t i = kindAt t j → i = j

/-- Every fired action has its kind recorded in `active_kinds`; this is the
mechanism the engine uses to enforce kind uniqueness in `check_idle`. -/
def Covered (t : LegacyIdleTimer) : Prop :=
  ∀ i, i < t.actions.length → firedAt t i = true →
    t.active_kinds.contains (kindAt t i) = true

/-! ## Helper lemmas about lists and sets -/

theorem getD_set_true_of (l : List Bool) (i j : Nat)
    (h : l.getD j false = true) : (l.set i true).getD j false = true := by
  induction l generalizing i j with
  | nil => simp at h
  | cons b bs ih =>
    cases i <;> cases j <;> simp_all [List.getD]

theorem getD_set_self_true (l : List Bool) (i : Nat) (h : i < l.length) :
    (l.set i true).getD i false = true := by
  simp [List.getD, List.getElem?_set_self, h]

theorem getD_set_ne_eq (l : List Bool) (i j : Nat) (h : i ≠ j) :
    (l.set i true).getD j false = l.getD j false := by
  simp [List.getD, List.getElem?_set_ne h]

theorem mem_enum_data {α : Type} [Inhabited α] (l : List α) (p : Nat × α)
    (h : p ∈ l.enum) : p.1 < l.length ∧ l.getD p.1 default = p.2 := by
  have h2 := List.mem_enum_iff_getElem?.mp h
  refine ⟨List.getElem?_eq_some_iff.mp h2 |>.1, ?_⟩
  rw [List.getD_eq_getElem?_getD, h2]
  rfl

theorem getD_mem_enum {α : Type} [Inhabited α] (l : List α) (j : Nat)
    (h : j < l.length) : (j, l.getD j default) ∈ l.enum := by
  apply List.mem_enum_iff_getElem?.mpr
  rw [List.getD_eq_getElem?_getD, List.getElem?_eq_getElem h]
  rfl

theorem contains_insertKind_self (ks : List String) (k : String) :
    (insertKind ks k).contains k = true := by
  unfold insertKind
  split
  · assumption
  · simp

theorem contains_insertKind_of (ks : List String) (k x : String)
    (h : ks.contains x = true) : (insertKind ks k).contains x = true := by
  unfold insertKind
  split
  · exact h
  · simp only [List.contains_cons, h, Bool.or_true]

/-! ## Structural lemmas about dispatch -/

namespace LegacyIdleTimer

/-- The state part of `preSuspendFromDispatch` changes only
`suspend_occurred`. -/
theorem preSuspendFromDispatch_state (t : LegacyIdleTimer) :
    (preSuspendFromDispatch t).1 = { t with suspend_occurred := true } := by
  unfold preSuspendFromDispatch
  cases t.pre_suspend_command <;> rfl

/-- State characterization of `dispatchAction`: it sets the fired flag,
inserts the kind, and touches only `previous_brightness` and
`suspend_occurred` otherwise. -/
theorem dispatchAction_state (cap : Option BrightnessState) (i : Nat)
    (a : IdleAction) (t : LegacyIdleTimer) :
    ∃ pb so, (dispatchAction cap i a t).1 =
      { t with is_idle_flags := t.is_idle_flags.set i true
               active_kinds := insertKind t.active_kinds (kindStr a.kind)
               previous_brightness := pb
               suspend_occurred := so } := by
  unfold dispatchAction
  cases ha : a.kind <;>
    simp only [ha] <;>
    split <;>
    first
      | exact ⟨_, _, rfl⟩
      | · rw [preSuspendFromDispatch_state]
          exact ⟨_, _, rfl⟩

/-- The dispatched-action part of the effects of `dispatchAction` is
exactly the action itself. -/
theorem dispatchList_dispatchAction (cap : Option BrightnessState) (i : Nat)
    (a : IdleAction) (t : LegacyIdleTimer) :
    dispatchList (dispatchAction cap i a t).2 = [(i, a)] := by
  unfold dispatchAction preSuspendFromDispatch
  cases a.kind <;> split <;>
    simp_all [dispatchList] <;>
    split <;> simp [dispatchList]

end LegacyIdleTimer

/-! ## Concrete fixtures used by the counterexamples and witnesses -/

/-- Ladder of two five-second actions of distinct kinds, with a resume
command and the default debounce of three seconds. -/
def cfgA : IdleConfig :=
  { actions := [("a", ⟨5, "cmdA", .custom⟩), ("b", ⟨5, "cmdB", .dpms⟩)]
    resume_command := some "R"
    pre_suspend_command := none
    debounce_seconds := 3 }

/-- Startup timer for `cfgA`. -/
def tA : LegacyIdleTimer := LegacyIdleTimer.new cfgA 0

/-! ## C1: resume pairing -/

/-- Timer in the middle of an episode (first action fired), manually
paused, with `suspend_occurred` still false. -/
def tC1 : LegacyIdleTimer :=
  { tA with is_idle_flags := [true, false], manually_paused := true }

/-- C1 counterexample: the claim says the resume command runs on every
episode exit iff the exiting episode had `suspend_occurred`, and that the
exit clears `suspend_occurred`. On the manual-resume exit path the code
schedules the resume command although `suspend_occurred` is false, and
when `suspend_occurred` is true that path does not clear it. -/
theorem c1_counterexample :
    tC1.suspend_occurred = false ∧
    Effect.scheduledResume "R" ∈ (tC1.resume true 50).2 ∧
    ({ tC1 with suspend_occurred := true }.resume true 50).1.suspend_occurred
      = true := by
  decide

/-- C1 amended: on the `reset` exit path, with a resume command configured
and some fired flag set, the resume command is scheduled iff
`suspend_occurred` was set, and `reset` clears `suspend_occurred`; on both
`resume` exit paths — manual (`resume(true)` on a manually paused timer)
and automatic (`resume(false)` on an auto-paused, not manually paused
timer) — the resume command is scheduled whenever any fired flag was set,
regardless of `suspend_occurred`, and `suspend_occurred` is not
cleared. -/
theorem c1_resume_pairing_amended (now : Nat) (t : LegacyIdleTimer)
    (c : String) (hc : t.resume_command = some c)
    (hidle : t.is_idle_flags.any id = true) :
    (Effect.scheduledResume c ∈ (t.reset now).2 ↔ t.suspend_occurred = true) ∧
    (t.reset now).1.suspend_occurred = false ∧
    (Effect.scheduledResume c ∈
        ({ t with manually_paused := true }.resume true now).2 ∧
      ({ t with manually_paused := true }.resume true
        now).1.suspend_occurred = t.suspend_occurred) ∧
    (Effect.scheduledResume c ∈
        ({ t with manually_paused := false, paused := true }.resume
          false now).2 ∧
      ({ t with manually_paused := false, paused := true }.resume false
        now).1.suspend_occurred = t.suspend_occurred) := by
  refine ⟨?_, ?_, ⟨?_, ?_⟩, ⟨?_, ?_⟩⟩
  · unfold LegacyIdleTimer.reset LegacyIdleTimer.apply_reset
    cases hs : t.suspend_occurred <;>
      cases hb : t.previous_brightness <;>
        simp [hidle, hc, hs, hb]
  · unfold LegacyIdleTimer.reset LegacyIdleTimer.apply_reset
    simp [hidle]
  · unfold LegacyIdleTimer.resume LegacyIdleTimer.reset_state_after_resume
    cases hb : t.previous_brightness <;> simp [hidle, hc, hb]
  · unfold LegacyIdleTimer.resume LegacyIdleTimer.reset_state_after_resume
    simp
  · unfold LegacyIdleTimer.resume LegacyIdleTimer.reset_state_after_resume
    cases hb : t.previous_brightness <;> simp [hidle, hc, hb]
  · unfold LegacyIdleTimer.resume LegacyIdleTimer.reset_state_after_resume
    simp

/-- Witness for the amended C1 at a concrete episode state. -/
theorem c1_resume_pairing_amended_witness :
    tC1.resume_command = some "R" ∧ tC1.is_idle_flags.any id = true ∧
    ((Effect.scheduledResume "R" ∈ (tC1.reset 50).2 ↔
        tC1.suspend_occurred = true) ∧
      (tC1.reset 50).1.suspend_occurred = false ∧
      (Effect.scheduledResume "R" ∈
          ({ tC1 with manually_paused := true }.resume true 50).2 ∧
        ({ tC1 with manually_paused := true }.resume true
          50).1.suspend_occurred = tC1.suspend_occurred) ∧
      (Effect.scheduledResume "R" ∈
          ({ tC1 with manually_paused := false, paused := true }.resume
            false 50).2 ∧
        ({ tC1 with manually_paused := false, paused := true }.resume
          false 50).1.suspend_occurred = tC1.suspend_occurred)) :=
  ⟨by decide, by decide,
    c1_resume_pairing_amended 50 tC1 "R" (by decide) (by decide)⟩

/-! ## C5: dispatch per check_idle call -/

/-- Timer whose one-shot idle debounce has already expired, with two
eligible actions. -/
def tC5 : LegacyIdleTimer := { tA with idle_debounce_until := some 3 }

/-- C5 counterexample: at a call where the one-shot idle debounce has
expired and both ladder actions are eligible, only the first action is
dispatched and the idle debounce is re-armed; the claim says every
eligible action is dispatched in that same call. -/
theorem c5_counterexample :
    (dispatchList (tC5.check_idle none 100).2) =
      [(0, ⟨5, "cmdA", IdleActionKind.custom⟩)] ∧
    (tC5.check_idle none 100).1.is_idle_flags = [true, false] ∧
    (tC5.check_idle none 100).1.idle_debounce_until = some 103 := by
  decide

theorem dispatchList_append (e1 e2 : List Effect) :
    dispatchList (e1 ++ e2) = dispatchList e1 ++ dispatchList e2 :=
  List.filterMap_append ..

theorem dispatchAction_idle_debounce (cap : Option BrightnessState)
    (i : Nat) (a : IdleAction) (t : LegacyIdleTimer) :
    (LegacyIdleTimer.dispatchAction cap i a t).1.idle_debounce_until
      = t.idle_debounce_until := by
  obtain ⟨pb, so, h⟩ := LegacyIdleTimer.dispatchAction_state cap i a t
  rw [h]

/-- While the one-shot idle debounce is unset, one pass of the check_idle
loop dispatches nothing: the first eligible action arms the debounce and
returns. -/
theorem checkIdleGo_none_no_dispatch (cap : Option BrightnessState)
    (now elapsed : Nat) :
    ∀ (L : List (Nat × IdleAction)) (t : LegacyIdleTimer),
      t.idle_debounce_until = none →
      dispatchList (LegacyIdleTimer.checkIdleGo cap now elapsed L t).2 = []
  | [], t, _ => rfl
  | (i, a) :: rest, t, h => by
    unfold LegacyIdleTimer.checkIdleGo
    split
    · exact checkIdleGo_none_no_dispatch cap now elapsed rest t h
    · split
      · rw [h]
        rfl
      · exact checkIdleGo_none_no_dispatch cap now elapsed rest t h

/-- One pass of the check_idle loop dispatches at most one action. -/
theorem checkIdleGo_dispatch_le_one (cap : Option BrightnessState)
    (now elapsed : Nat) :
    ∀ (L : List (Nat × IdleAction)) (t : LegacyIdleTimer),
      (dispatchList (LegacyIdleTimer.checkIdleGo cap now elapsed L t).2).length ≤ 1
  | [], t => by simp [LegacyIdleTimer.checkIdleGo, dispatchList]
  | (i, a) :: rest, t => by
    unfold LegacyIdleTimer.checkIdleGo
    split
    · exact checkIdleGo_dispatch_le_one cap now elapsed rest t
    · split
      · split
        · split
          · simp [dispatchList]
          · have hnone : (LegacyIdleTimer.dispatchAction cap i a
                { t with idle_debounce_until := none }).1.idle_debounce_until
                = none := by
              rw [dispatchAction_idle_debounce]
            rw [dispatchList_append,
              LegacyIdleTimer.dispatchList_dispatchAction,
              checkIdleGo_none_no_dispatch cap now elapsed rest _ hnone]
            simp
        · simp [dispatchList]
      · exact checkIdleGo_dispatch_le_one cap now elapsed rest t

/-- C5 amended: within a single `check_idle` call at most one action is
dispatched; once the expired one-shot idle debounce is consumed by the
first eligible action, the next eligible action re-arms the debounce and
the loop returns, deferring every further action to a later call. -/
theorem c5_single_dispatch_amended (cap : Option BrightnessState)
    (now : Nat) (t : LegacyIdleTimer) :
    (dispatchList (t.check_idle cap now).2).length ≤ 1 := by
  unfold LegacyIdleTimer.check_idle
  split
  · simp [dispatchList]
  · split
    · split
      · simp [dispatchList]
      · exact checkIdleGo_dispatch_le_one ..
    · exact checkIdleGo_dispatch_le_one ..

/-! ## C7: pause suppression -/

/-- Manually paused timer (the manual pause path sets `paused := false`),
with the idle debounce already expired. -/
def tC7 : LegacyIdleTimer :=
  { tA with manually_paused := true, idle_debounce_until := some 3 }

/-- C7 counterexample: the claim says a call to `check_idle` produces no
dispatches and sets no fired flags whenever `manually_paused` is true.
`check_idle` only tests `paused`, so on a manually paused timer (where
`pause(true)` left `paused == false`) it still dispatches and sets a
fired flag. -/
theorem c7_counterexample :
    tC7.manually_paused = true ∧ tC7.paused = false ∧
    dispatchList (tC7.check_idle none 100).2 =
      [(0, ⟨5, "cmdA", IdleActionKind.custom⟩)] ∧
    firedAt (tC7.check_idle none 100).1 0 = true := by
  decide

/-- C7 amended: `check_idle` itself suppresses dispatch only for the
automatic pause flag; the manual pause is enforced by the idle-task
caller, which skips `check_idle` while `manually_paused` — so one guarded
tick produces no dispatches and no state change while either flag is
set. -/
theorem c7_pause_suppression_amended (cap : Option BrightnessState)
    (now : Nat) (t : LegacyIdleTimer)
    (h : t.paused = true ∨ t.manually_paused = true) :
    idleTick cap now t = (t, []) ∧
    (t.paused = true → t.check_idle cap now = (t, [])) := by
  have hchk : t.paused = true → t.check_idle cap now = (t, []) := by
    intro hp
    unfold LegacyIdleTimer.check_idle
    simp [hp]
  refine ⟨?_, hchk⟩
  unfold idleTick
  rcases hm : t.manually_paused with _ | _
  · simp only [Bool.false_eq_true, if_false]
    rcases h with hp | hp
    · exact hchk hp
    · rw [hm] at hp
      exact absurd hp (by simp)
  · simp

/-- Witness for the amended C7 at a concrete paused timer. -/
theorem c7_pause_suppression_amended_witness :
    (tC7.paused = true ∨ tC7.manually_paused = true) ∧
    (idleTick none 100 tC7 = (tC7, []) ∧
      (tC7.paused = true → tC7.check_idle none 100 = (tC7, []))) :=
  ⟨Or.inr (by decide),
    c7_pause_suppression_amended none 100 tC7 (Or.inr (by decide))⟩

/-! ## C8: debounce monotonicity -/

/-- C8 counterexample: immediately after a `reset` at time 10 (which arms
the activity debounce until 13), `trigger_idle` — reached from the
compositor Idled path — dispatches every ladder action although the
debounce deadline has not passed; the claim says no Timer operation
dispatches inside the window. -/
theorem c8_counterexample :
    (tA.reset 10).1.debounce_until = some 13 ∧
    dispatchList ((tA.reset 10).1.trigger_idle).2 =
      [(0, ⟨5, "cmdA", IdleActionKind.custom⟩),
       (1, ⟨5, "cmdB", IdleActionKind.dpms⟩)] := by
  decide

/-- C8 amended: `check_idle` dispatches nothing (and leaves the state
unchanged) while the activity debounce deadline has not passed, and
`elapsed_idle` reports zero there; `trigger_idle` and the instant-action
paths are not gated by the debounce. -/
theorem c8_debounce_amended (cap : Option BrightnessState) (now u : Nat)
    (t : LegacyIdleTimer) (hd : t.debounce_until = some u) (hn : now < u) :
    t.check_idle cap now = (t, []) ∧ t.elapsed_idle now = 0 := by
  constructor
  · unfold LegacyIdleTimer.check_idle
    split
    · rfl
    · simp [hd, hn]
  · unfold LegacyIdleTimer.elapsed_idle
    simp [hd, hn]

/-- Witness for the amended C8 just after a reset. -/
theorem c8_debounce_amended_witness :
    (tA.reset 10).1.debounce_until = some 13 ∧ 11 < 13 ∧
    ((tA.reset 10).1.check_idle none 11 = ((tA.reset 10).1, []) ∧
      (tA.reset 10).1.elapsed_idle 11 = 0) :=
  ⟨by decide, by decide,
    c8_debounce_amended none 11 13 (tA.reset 10).1 (by decide) (by decide)⟩

/-! ## C9: pause/resume law -/

/-- Timer carrying per-episode residue: a suspend flag and both debounce
deadlines. -/
def tC9 : LegacyIdleTimer :=
  { tA with suspend_occurred := true, debounce_until := some 7,
            idle_debounce_until := some 9 }

/-- C9 counterexample: after `pause(true); resume(true)` the suspend flag
and both pending debounce deadlines survive, contradicting the claim that
no per-episode residue is carried into the next episode. -/
theorem c9_counterexample :
    (((tC9.pause true).resume true 50).1.suspend_occurred = true) ∧
    (((tC9.pause true).resume true 50).1.debounce_until = some 7) ∧
    (((tC9.pause true).resume true 50).1.idle_debounce_until = some 9) := by
  decide

/-- C9 amended: `pause(true); resume(true)` always clears both pause
flags, all fired flags, `active_kinds` and the brightness backup, and
restarts `last_activity`; but `suspend_occurred`, the activity debounce
deadline and the idle debounce deadline are carried over unchanged. -/
theorem c9_pause_resume_amended (now : Nat) (t : LegacyIdleTimer) :
    (((t.pause true).resume true now).1.manually_paused = false) ∧
    (((t.pause true).resume true now).1.paused = false) ∧
    (((t.pause true).resume true now).1.is_idle_flags
      = t.is_idle_flags.map fun _ => false) ∧
    (((t.pause true).resume true now).1.active_kinds = []) ∧
    (((t.pause true).resume true now).1.previous_brightness = none) ∧
    (((t.pause true).resume true now).1.last_activity = now) ∧
    (((t.pause true).resume true now).1.suspend_occurred
      = t.suspend_occurred) ∧
    (((t.pause true).resume true now).1.debounce_until = t.debounce_until) ∧
    (((t.pause true).resume true now).1.idle_debounce_until
      = t.idle_debounce_until) :=
  ⟨rfl, rfl, rfl, rfl, rfl, rfl, rfl, rfl, rfl⟩

/-! ## C10: shortest_timeout totality -/

/-- C10: `shortest_timeout` is total with a fixed fallback — when every
ladder action is instant (or the ladder is empty) it returns 60 seconds,
and otherwise it returns the minimum positive timeout, attained by some
ladder action. -/
theorem c10_shortest_timeout_total (t : LegacyIdleTimer) :
    ((∀ a ∈ t.actions, a.timeout_seconds = 0) → t.shortest_timeout = 60) ∧
    (∀ a ∈ t.actions, 0 < a.timeout_seconds →
      t.shortest_timeout ≤ a.timeout_seconds ∧
      ∃ b ∈ t.actions, 0 < b.timeout_seconds ∧
        t.shortest_timeout = b.timeout_seconds) := by
  constructor
  · intro h0
    unfold LegacyIdleTimer.shortest_timeout
    have hf : (t.actions.filter fun a => 0 < a.timeout_seconds) = [] := by
      apply List.filter_eq_nil_iff.mpr
      intro a ha
      simp [h0 a ha]
    rw [hf]
    rfl
  · intro a ha hpos
    unfold LegacyIdleTimer.shortest_timeout
    have hmem : a.timeout_seconds ∈
        ((t.actions.filter fun a => 0 < a.timeout_seconds).map
          fun a => a.timeout_seconds) := by
      apply List.mem_map_of_mem
      apply List.mem_filter.mpr
      exact ⟨ha, by simpa using hpos⟩
    cases hm : ((t.actions.filter fun a => 0 < a.timeout_seconds).map
        fun a => a.timeout_seconds).min? with
    | none =>
      rw [List.min?_eq_none_iff] at hm
      rw [hm] at hmem
      exact absurd hmem (List.not_mem_nil _)
    | some m =>
      obtain ⟨hmMem, hmLe⟩ := (List.min?_eq_some_iff' ..).mp hm
      obtain ⟨b, hbf, hbeq⟩ := List.mem_map.mp hmMem
      obtain ⟨hbMem, hbPos⟩ := List.mem_filter.mp hbf
      refine ⟨hmLe _ hmem, b, hbMem, by simpa using hbPos, hbeq.symm⟩

/-- Witness for C10 on the two-action ladder (minimum 5) and on a ladder
with no positive timeouts (fallback 60). -/
theorem c10_shortest_timeout_total_witness :
    ((⟨5, "cmdA", IdleActionKind.custom⟩ : IdleAction) ∈ tA.actions ∧
      0 < (5 : Nat) ∧
      (tA.shortest_timeout ≤ 5 ∧
        ∃ b ∈ tA.actions, 0 < b.timeout_seconds ∧
          tA.shortest_timeout = b.timeout_seconds)) ∧
    ((∀ a ∈ ({ tA with actions := [] } : LegacyIdleTimer).actions,
        a.timeout_seconds = 0) ∧
      ({ tA with actions := [] } : LegacyIdleTimer).shortest_timeout = 60) :=
  ⟨⟨by decide, by decide,
      (c10_shortest_timeout_total tA).2 ⟨5, "cmdA", IdleActionKind.custom⟩
        (by decide) (by decide)⟩,
    ⟨by decide,
      (c10_shortest_timeout_total { tA with actions := [] }).1 (by decide)⟩⟩

/-! ## Lemmas about the instant-action dispatch loop -/

theorem getD_map_false (l : List Bool) (j : Nat) :
    (l.map fun _ => false).getD j false = false := by
  induction l generalizing j with
  | nil => rfl
  | cons b bs ih =>
    cases j with
    | zero => rfl
    | succ n => exact ih n

theorem dispatchAction_fields (cap : Option BrightnessState) (i : Nat)
    (a : IdleAction) (t : LegacyIdleTimer) :
    (LegacyIdleTimer.dispatchAction cap i a t).1.actions = t.actions ∧
    (LegacyIdleTimer.dispatchAction cap i a t).1.is_idle_flags
      = t.is_idle_flags.set i true ∧
    (LegacyIdleTimer.dispatchAction cap i a t).1.debounce_until
      = t.debounce_until ∧
    (LegacyIdleTimer.dispatchAction cap i a t).1.last_activity
      = t.last_activity := by
  obtain ⟨pb, so, h⟩ := LegacyIdleTimer.dispatchAction_state cap i a t
  rw [h]
  exact ⟨rfl, rfl, rfl, rfl⟩

theorem dispatchAction_suspend_mono (cap : Option BrightnessState) (i : Nat)
    (a : IdleAction) (t : LegacyIdleTimer) (h : t.suspend_occurred = true) :
    (LegacyIdleTimer.dispatchAction cap i a t).1.suspend_occurred = true := by
  unfold LegacyIdleTimer.dispatchAction
  cases hk : a.kind <;>
    simp only [hk, LegacyIdleTimer.preSuspendFromDispatch_state] <;>
    first
      | rfl
      | (split <;> simp [h])

theorem fireInstants_cons (cap : Option BrightnessState) (i : Nat)
    (a : IdleAction) (rest : List (Nat × IdleAction)) (t : LegacyIdleTimer) :
    LegacyIdleTimer.fireInstants cap ((i, a) :: rest) t =
      ((LegacyIdleTimer.fireInstants cap rest
          (LegacyIdleTimer.dispatchAction cap i a t).1).1,
        (LegacyIdleTimer.dispatchAction cap i a t).2 ++
          (LegacyIdleTimer.fireInstants cap rest
            (LegacyIdleTimer.dispatchAction cap i a t).1).2) := rfl

/-- The dispatched actions of the instant-action loop are exactly the
pre-collected list. -/
theorem dispatchList_fireInstants (cap : Option BrightnessState) :
    ∀ (L : List (Nat × IdleAction)) (t : LegacyIdleTimer),
      dispatchList (LegacyIdleTimer.fireInstants cap L t).2 = L
  | [], _ => rfl
  | (i, a) :: rest, t => by
    rw [fireInstants_cons]
    rw [dispatchList_append, LegacyIdleTimer.dispatchList_dispatchAction,
      dispatchList_fireInstants cap rest]
    rfl

theorem fireInstants_fields (cap : Option BrightnessState) :
    ∀ (L : List (Nat × IdleAction)) (t : LegacyIdleTimer),
      (LegacyIdleTimer.fireInstants cap L t).1.actions = t.actions ∧
      (LegacyIdleTimer.fireInstants cap L t).1.is_idle_flags.length
        = t.is_idle_flags.length ∧
      (LegacyIdleTimer.fireInstants cap L t).1.debounce_until
        = t.debounce_until ∧
      (LegacyIdleTimer.fireInstants cap L t).1.last_activity
        = t.last_activity
  | [], _ => ⟨rfl, rfl, rfl, rfl⟩
  | (i, a) :: rest, t => by
    rw [fireInstants_cons]
    obtain ⟨h1, h2, h3, h4⟩ :=
      fireInstants_fields cap rest (LegacyIdleTimer.dispatchAction cap i a t).1
    obtain ⟨g1, g2, g3, g4⟩ := dispatchAction_fields cap i a t
    exact ⟨h1.trans g1, by rw [h2, g2, List.length_set], h3.trans g3,
      h4.trans g4⟩

theorem fireInstants_idle_debounce (cap : Option BrightnessState) :
    ∀ (L : List (Nat × IdleAction)) (t : LegacyIdleTimer),
      (LegacyIdleTimer.fireInstants cap L t).1.idle_debounce_until
        = t.idle_debounce_until
  | [], _ => rfl
  | (i, a) :: rest, t => by
    rw [fireInstants_cons]
    rw [fireInstants_idle_debounce cap rest, dispatchAction_idle_debounce]

theorem fireInstants_suspend_mono (cap : Option BrightnessState) :
    ∀ (L : List (Nat × IdleAction)) (t : LegacyIdleTimer),
      t.suspend_occurred = true →
      (LegacyIdleTimer.fireInstants cap L t).1.suspend_occurred = true
  | [], _, h => h
  | (i, a) :: rest, t, h => by
    rw [fireInstants_cons]
    exact fireInstants_suspend_mono cap rest _
      (dispatchAction_suspend_mono cap i a t h)

theorem dispatchAction_suspend_of_ne (cap : Option BrightnessState)
    (i : Nat) (a : IdleAction) (t : LegacyIdleTimer)
    (h : a.kind ≠ IdleActionKind.suspend) :
    (LegacyIdleTimer.dispatchAction cap i a t).1.suspend_occurred
      = t.suspend_occurred := by
  unfold LegacyIdleTimer.dispatchAction
  cases hk : a.kind <;>
    simp only [hk] <;>
    first
      | exact absurd hk h
      | (split <;> rfl)

theorem fireInstants_suspend_of_ne (cap : Option BrightnessState) :
    ∀ (L : List (Nat × IdleAction)) (t : LegacyIdleTimer),
      (∀ p ∈ L, p.2.kind ≠ IdleActionKind.suspend) →
      (LegacyIdleTimer.fireInstants cap L t).1.suspend_occurred
        = t.suspend_occurred
  | [], _, _ => rfl
  | (i, a) :: rest, t, h => by
    rw [fireInstants_cons]
    rw [fireInstants_suspend_of_ne cap rest _
      (fun p hp => h p (List.mem_cons_of_mem _ hp))]
    exact dispatchAction_suspend_of_ne cap i a t
      (h (i, a) (List.mem_cons_self ..))

theorem fireInstants_flag_mono (cap : Option BrightnessState) :
    ∀ (L : List (Nat × IdleAction)) (t : LegacyIdleTimer) (j : Nat),
      t.is_idle_flags.getD j false = true →
      (LegacyIdleTimer.fireInstants cap L t).1.is_idle_flags.getD j false
        = true
  | [], _, _, h => h
  | (i, a) :: rest, t, j, h => by
    rw [fireInstants_cons]
    apply fireInstants_flag_mono cap rest _ j
    rw [(dispatchAction_fields cap i a t).2.1]
    exact getD_set_true_of _ i j h

theorem fireInstants_sets (cap : Option BrightnessState) :
    ∀ (L : List (Nat × IdleAction)) (t : LegacyIdleTimer)
      (i : Nat) (a : IdleAction), (i, a) ∈ L → i < t.is_idle_flags.length →
      (LegacyIdleTimer.fireInstants cap L t).1.is_idle_flags.getD i false
        = true
  | [], _, _, _, h, _ => absurd h (List.not_mem_nil _)
  | (i0, a0) :: rest, t, i, a, h, hlt => by
    rw [fireInstants_cons]
    rcases List.mem_cons.mp h with heq | hrest
    · apply fireInstants_flag_mono
      rw [(dispatchAction_fields cap i0 a0 t).2.1]
      cases heq
      exact getD_set_self_true _ _ hlt
    · apply fireInstants_sets cap rest _ i a hrest
      rw [(dispatchAction_fields cap i0 a0 t).2.1, List.length_set]
      exact hlt

theorem fireInstants_flag_untouched (cap : Option BrightnessState) :
    ∀ (L : List (Nat × IdleAction)) (t : LegacyIdleTimer) (j : Nat),
      (∀ p ∈ L, p.1 ≠ j) →
      (LegacyIdleTimer.fireInstants cap L t).1.is_idle_flags.getD j false
        = t.is_idle_flags.getD j false
  | [], _, _, _ => rfl
  | (i0, a0) :: rest, t, j, h => by
    rw [fireInstants_cons]
    rw [fireInstants_flag_untouched cap rest _ j
      (fun p hp => h p (List.mem_cons_of_mem _ hp))]
    rw [(dispatchAction_fields cap i0 a0 t).2.1]
    exact getD_set_ne_eq _ i0 j (h (i0, a0) (List.mem_cons_self ..))

/-- Flag characterization of `trigger_instant_actions` on an all-false
flag vector: afterwards exactly the instant indices are fired. -/
theorem trigger_instant_flags_iff (cap : Option BrightnessState)
    (t : LegacyIdleTimer)
    (hzero : ∀ j, t.is_idle_flags.getD j false = false)
    (hlen : t.is_idle_flags.length = t.actions.length) (j : Nat) :
    (t.trigger_instant_actions cap).1.is_idle_flags.getD j false = true ↔
      j < t.actions.length ∧
        (t.actions.getD j default).timeout_seconds = 0 := by
  unfold LegacyIdleTimer.trigger_instant_actions
  constructor
  · intro hj
    by_cases hmem : ∀ p ∈ LegacyIdleTimer.instantsToFire t, p.1 ≠ j
    · rw [fireInstants_flag_untouched cap _ t j hmem, hzero j] at hj
      exact absurd hj (by simp)
    · push_neg at hmem
      obtain ⟨p, hp, hpj⟩ := hmem
      obtain ⟨hpf, hcond⟩ :=
        List.mem_filter.mp (hp : p ∈ LegacyIdleTimer.instantsToFire t)
      obtain ⟨hlt, hget⟩ := mem_enum_data _ _ hpf
      subst hpj
      refine ⟨hlt, ?_⟩
      have hb : (p.2.timeout_seconds == 0) = true :=
        ((Bool.and_eq_true ..).mp hcond).1
      rw [hget]
      simpa using hb
  · rintro ⟨hlt, h0⟩
    apply fireInstants_sets cap _ t j (t.actions.getD j default)
    · apply List.mem_filter.mpr
      refine ⟨getD_mem_enum _ j hlt, ?_⟩
      simp only [Bool.and_eq_true, beq_iff_eq, Bool.not_eq_true']
      exact ⟨h0, hzero j⟩
    · rw [hlen]
      exact hlt

/-! ## C4: instant-action once-per-ladder -/

/-- Ladder with one instant action and one ten-second action. -/
def cfgB : IdleConfig :=
  { actions := [("a", ⟨0, "x", .custom⟩), ("b", ⟨10, "y", .dpms⟩)]
    resume_command := none
    pre_suspend_command := none
    debounce_seconds := 3 }

/-- Startup timer for `cfgB`. -/
def tB : LegacyIdleTimer := LegacyIdleTimer.new cfgB 0

/-- Count of dispatched instant actions in an effect list. -/
def instantDispatchCount (effs : List Effect) : Nat :=
  (dispatchList effs).countP fun p => p.2.timeout_seconds == 0

/-- C4 counterexample: a single ladder installation (startup) dispatches
its instant action once at `init`, but after a `reset` cleared the fired
flags, `trigger_idle` dispatches the same instant action again with no
new installation — so the instant-dispatch count exceeds the number of
installations. -/
theorem c4_counterexample :
    instantDispatchCount (tB.init none).2 = 1 ∧
    instantDispatchCount (((tB.init none).1.reset 5).1.trigger_idle).2
      = 1 := by
  decide

theorem trigger_instant_actions_of_empty (cap : Option BrightnessState)
    (t : LegacyIdleTimer) (h : LegacyIdleTimer.instantsToFire t = []) :
    LegacyIdleTimer.trigger_instant_actions cap t = (t, []) := by
  unfold LegacyIdleTimer.trigger_instant_actions
  rw [h]
  rfl

theorem checkIdleGo_no_instant (cap : Option BrightnessState)
    (now elapsed : Nat) :
    ∀ (L : List (Nat × IdleAction)) (t : LegacyIdleTimer)
      (p : Nat × IdleAction),
      p ∈ dispatchList (LegacyIdleTimer.checkIdleGo cap now elapsed L t).2 →
      p.2.timeout_seconds ≠ 0
  | [], _, p, h => absurd h (List.not_mem_nil _)
  | (i, a) :: rest, t, p, h => by
    rw [LegacyIdleTimer.checkIdleGo] at h
    split at h
    · exact checkIdleGo_no_instant cap now elapsed rest t p h
    · rename_i hskip
      split at h
      · split at h
        · split at h
          · exact absurd h (List.not_mem_nil _)
          · rw [dispatchList_append,
              LegacyIdleTimer.dispatchList_dispatchAction] at h
            rcases List.mem_append.mp h with hl | hr
            · have hi : p = (i, a) := by simpa using hl
              subst hi
              have h0 : (a.timeout_seconds == 0) = false := by
                revert hskip
                simp only [Bool.or_eq_true, not_or, Bool.not_eq_true]
                intro hskip
                exact hskip.1.1
              simpa using h0
            · exact checkIdleGo_no_instant cap now elapsed rest _ p hr
        · exact absurd h (List.not_mem_nil _)
      · exact checkIdleGo_no_instant cap now elapsed rest t p h

/-- C4 amended: `check_idle` never dispatches an instant action; one run
of `trigger_instant_actions` dispatches exactly the pending instant
actions of the current ladder (hence each instant action once for a
freshly installed ladder), and a second immediate run dispatches nothing;
but `trigger_idle` (after a reset cleared the fired flags) and a rewind
pre-suspend re-dispatch instant actions, so the dispatch count over an
event sequence can exceed the number of ladder installations. -/
theorem c4_instant_once_amended :
    (∀ (cap : Option BrightnessState) (now : Nat) (t : LegacyIdleTimer)
      (p : Nat × IdleAction),
      p ∈ dispatchList (t.check_idle cap now).2 →
      p.2.timeout_seconds ≠ 0) ∧
    (∀ (cap : Option BrightnessState) (t : LegacyIdleTimer),
      dispatchList (t.trigger_instant_actions cap).2
        = LegacyIdleTimer.instantsToFire t) ∧
    (∀ (cap : Option BrightnessState) (t : LegacyIdleTimer),
      t.is_idle_flags.length = t.actions.length →
      (LegacyIdleTimer.trigger_instant_actions cap
        (t.trigger_instant_actions cap).1).2 = []) := by
  refine ⟨?_, ?_, ?_⟩
  · intro cap now t p hp
    rw [LegacyIdleTimer.check_idle] at hp
    split at hp
    · exact absurd hp (List.not_mem_nil _)
    · split at hp
      · split at hp
        · exact absurd hp (List.not_mem_nil _)
        · exact checkIdleGo_no_instant cap now _ _ _ p hp
      · exact checkIdleGo_no_instant cap now _ _ _ p hp
  · intro cap t
    exact dispatchList_fireInstants cap _ t
  · intro cap t hlen
    have hact : (t.trigger_instant_actions cap).1.actions = t.actions :=
      (fireInstants_fields cap _ t).1
    have hkey : LegacyIdleTimer.instantsToFire
        (t.trigger_instant_actions cap).1 = [] := by
      apply List.filter_eq_nil_iff.mpr
      intro p hp
      obtain ⟨i, a⟩ := p
      rw [hact] at hp
      obtain ⟨hlt, hget⟩ := mem_enum_data _ _ hp
      by_cases h0 : a.timeout_seconds = 0
      · have hflag : (t.trigger_instant_actions cap).1.is_idle_flags.getD
            i false = true := by
          by_cases hf : t.is_idle_flags.getD i false = true
          · exact fireInstants_flag_mono cap _ t i hf
          · apply fireInstants_sets cap _ t i a
            · apply List.mem_filter.mpr
              refine ⟨hp, ?_⟩
              simp only [Bool.and_eq_true, beq_iff_eq, Bool.not_eq_true']
              exact ⟨h0, Bool.not_eq_true _ ▸ hf⟩
            · rw [hlen]
              exact hlt
        have hflag2 : (!(LegacyIdleTimer.trigger_instant_actions
            cap t).1.is_idle_flags.getD i false) = false := by
          rw [hflag]
          rfl
        simp only [hflag2, Bool.and_false]
        exact Bool.false_ne_true
      · simp [h0]
    rw [trigger_instant_actions_of_empty cap _ hkey]

/-- Witness for the amended C4: a concrete dispatched action has a
positive timeout, the instant loop on the startup ladder dispatches
exactly its pending instant action, and an immediate second run
dispatches nothing. -/
theorem c4_instant_once_amended_witness :
    ((0, ⟨5, "cmdA", IdleActionKind.custom⟩) ∈
        dispatchList (tC5.check_idle none 100).2 ∧
      (⟨5, "cmdA", IdleActionKind.custom⟩ : IdleAction).timeout_seconds
        ≠ 0) ∧
    dispatchList (tB.trigger_instant_actions none).2
      = LegacyIdleTimer.instantsToFire tB ∧
    (tB.is_idle_flags.length = tB.actions.length ∧
      (LegacyIdleTimer.trigger_instant_actions none
        (tB.trigger_instant_actions none).1).2 = []) :=
  ⟨⟨by decide,
      c4_instant_once_amended.1 none 100 tC5
        (0, ⟨5, "cmdA", IdleActionKind.custom⟩) (by decide)⟩,
    c4_instant_once_amended.2.1 none tB,
    ⟨by decide, c4_instant_once_amended.2.2 none tB (by decide)⟩⟩

/-! ## C6: pre-suspend semantics -/

/-- Timer mid-episode with no pre-suspend command configured. -/
def tC6 : LegacyIdleTimer := { tA with is_idle_flags := [true, true] }

/-- Timer mid-episode with a pre-suspend command, a brightness backup and
a pending idle debounce. -/
def tC6b : LegacyIdleTimer :=
  { tA with is_idle_flags := [true, true]
            pre_suspend_command := some "P"
            previous_brightness := some ⟨"bl", 5⟩
            idle_debounce_until := some 99 }

/-- Timer whose ladder is a single instant Suspend action, with a
pre-suspend command configured. -/
def tC6c : LegacyIdleTimer :=
  { tA with actions := [⟨0, "sus", .suspend⟩]
            is_idle_flags := [false]
            pre_suspend_command := some "P" }

/-- C6 counterexample: the claim says the rewind work happens whether or
not a pre-suspend command is configured, that it performs the same
clearing work as `reset`, and that `suspend_occurred` is set exactly when
`manual` is false. With no command configured,
`trigger_pre_suspend(true, false)` leaves the fired flags set and the
idle clock untouched; with a command configured, the rewind leaves the
brightness backup and the idle debounce deadline in place, which `reset`
would clear; and on a ladder with an instant Suspend action, a manual
rewind (`manual = true`) still ends with `suspend_occurred = true`,
because the re-fired Suspend dispatch calls
`trigger_pre_suspend(false, false)`. -/
theorem c6_counterexample :
    tC6.pre_suspend_command = none ∧
    (tC6.trigger_pre_suspend none true false 50).1.is_idle_flags
      = [true, true] ∧
    (tC6.trigger_pre_suspend none true false 50).1.last_activity = 0 ∧
    (tC6b.trigger_pre_suspend none true false 50).1.previous_brightness
      = some ⟨"bl", 5⟩ ∧
    (tC6b.trigger_pre_suspend none true false 50).1.idle_debounce_until
      = some 99 ∧
    tC6c.suspend_occurred = false ∧
    (tC6c.trigger_pre_suspend none true true 50).1.suspend_occurred
      = true := by
  decide

/-- C6 amended: when a pre-suspend command is configured,
`trigger_pre_suspend(rewind = true, manual)` runs it synchronously first,
sets `suspend_occurred` when `manual` is false, and rewinds the ladder —
`last_activity` restarts, and afterwards exactly the instant actions are
fired (re-fired through `trigger_instant_actions`) — without arming the
activity debounce and without the rest of the clearing work of `reset`
(the brightness backup and the idle debounce deadline are left in
place). When `manual` is true, `suspend_occurred` is preserved only if
the ladder has no Suspend-kind action: a re-fired instant Suspend action
sets it even on a manual rewind. When no pre-suspend command is
configured, the rewind work does not happen at all. -/
theorem c6_pre_suspend_amended (cap : Option BrightnessState)
    (manual : Bool) (now : Nat) (t : LegacyIdleTimer) (c : String)
    (hc : t.pre_suspend_command = some c)
    (hlen : t.is_idle_flags.length = t.actions.length) :
    ((t.trigger_pre_suspend cap true manual now).2.head?
      = some (Effect.ranPreSuspend c)) ∧
    ((t.trigger_pre_suspend cap true manual now).1.last_activity = now) ∧
    ((t.trigger_pre_suspend cap true manual now).1.debounce_until
      = t.debounce_until) ∧
    ((t.trigger_pre_suspend cap true manual now).1.idle_debounce_until
      = t.idle_debounce_until) ∧
    (manual = false →
      (t.trigger_pre_suspend cap true manual now).1.suspend_occurred
        = true) ∧
    (manual = true →
      (∀ a ∈ t.actions, a.kind ≠ IdleActionKind.suspend) →
      (t.trigger_pre_suspend cap true manual now).1.suspend_occurred
        = t.suspend_occurred) ∧
    (∀ j, (t.trigger_pre_suspend cap true manual now).1.is_idle_flags.getD
        j false = true ↔
      j < t.actions.length ∧
        (t.actions.getD j default).timeout_seconds = 0) := by
  cases manual with
  | false =>
    unfold LegacyIdleTimer.trigger_pre_suspend
    simp only [Bool.false_eq_true, if_false, hc]
    refine ⟨rfl, ?_, ?_, ?_, fun _ => ?_,
      fun h => absurd h (by simp), fun j => ?_⟩
    · exact (fireInstants_fields cap _ _).2.2.2
    · exact (fireInstants_fields cap _ _).2.2.1
    · exact fireInstants_idle_debounce cap _ _
    · exact fireInstants_suspend_mono cap _ _ rfl
    · exact trigger_instant_flags_iff cap _ (fun j => getD_map_false _ j)
        (by simpa using hlen) j
  | true =>
    unfold LegacyIdleTimer.trigger_pre_suspend
    simp only [if_true, hc]
    refine ⟨rfl, ?_, ?_, ?_, fun h => absurd h (by simp),
      fun _ hno => ?_, fun j => ?_⟩
    · exact (fireInstants_fields cap _ _).2.2.2
    · exact (fireInstants_fields cap _ _).2.2.1
    · exact fireInstants_idle_debounce cap _ _
    · refine (fireInstants_suspend_of_ne cap _ _ ?_).trans rfl
      intro p hp
      obtain ⟨hlt, hget⟩ := mem_enum_data _ _ (List.mem_filter.mp hp).1
      have hmem : p.2 ∈ t.actions := by
        rw [← hget, List.getD_eq_getElem?_getD,
          List.getElem?_eq_getElem hlt, Option.getD_some]
        exact List.getElem_mem hlt
      exact hno p.2 hmem
    · exact trigger_instant_flags_iff cap _ (fun j => getD_map_false _ j)
        (by simpa using hlen) j

/-- Witness for the amended C6 on a concrete mid-episode timer with a
configured pre-suspend command. -/
theorem c6_pre_suspend_amended_witness :
    tC6b.pre_suspend_command = some "P" ∧
    tC6b.is_idle_flags.length = tC6b.actions.length ∧
    (((tC6b.trigger_pre_suspend none true false 50).2.head?
        = some (Effect.ranPreSuspend "P")) ∧
      ((tC6b.trigger_pre_suspend none true false 50).1.last_activity
        = 50) ∧
      ((tC6b.trigger_pre_suspend none true false 50).1.debounce_until
        = tC6b.debounce_until) ∧
      ((tC6b.trigger_pre_suspend none true false 50).1.idle_debounce_until
        = tC6b.idle_debounce_until) ∧
      (false = false →
        (tC6b.trigger_pre_suspend none true false 50).1.suspend_occurred
          = true) ∧
      (false = true →
        (∀ a ∈ tC6b.actions, a.kind ≠ IdleActionKind.suspend) →
        (tC6b.trigger_pre_suspend none true false 50).1.suspend_occurred
          = tC6b.suspend_occurred) ∧
      (∀ j, (tC6b.trigger_pre_suspend none true false
          50).1.is_idle_flags.getD j false = true ↔
        j < tC6b.actions.length ∧
          (tC6b.actions.getD j default).timeout_seconds = 0)) :=
  ⟨by decide, by decide,
    c6_pre_suspend_amended none false 50 tC6b "P" (by decide) (by decide)⟩

/-! ## C2: kind uniqueness -/

/-- Ladder with two custom actions at distinct timeouts — two ladder
entries sharing the kind `custom`. -/
def cfgK : IdleConfig :=
  { actions := [("a", ⟨10, "x", .custom⟩), ("b", ⟨20, "y", .custom⟩)]
    resume_command := none
    pre_suspend_command := none
    debounce_seconds := 3 }

/-- C2 counterexample: `mark_all_idle` — one of the operations the claim
says preserves kind uniqueness — sets every fired flag without consulting
`active_kinds`, so on a reachable startup ladder with two actions of kind
`custom`, both end up fired and the ≤ 1 bound fails. -/
theorem c2_counterexample :
    firedAt ((LegacyIdleTimer.new cfgK 0).mark_all_idle) 0 = true ∧
    firedAt ((LegacyIdleTimer.new cfgK 0).mark_all_idle) 1 = true ∧
    kindAt ((LegacyIdleTimer.new cfgK 0).mark_all_idle) 0
      = kindAt ((LegacyIdleTimer.new cfgK 0).mark_all_idle) 1 ∧
    ¬ KindUnique ((LegacyIdleTimer.new cfgK 0).mark_all_idle) := by
  refine ⟨by decide, by decide, by decide, fun h => ?_⟩
  have h01 := h 0 1 (by decide) (by decide) (by decide) (by decide)
    (by decide)
  exact absurd h01 (by decide)

/-- Core step for kind-uniqueness preservation: firing an action whose
kind is not yet in `active_kinds` keeps every fired kind covered and
keeps fired kinds unique. -/
theorem kind_inv_step (actions : List IdleAction) (flags : List Bool)
    (ks : List String) (i : Nat) (a : IdleAction)
    (hcov : ∀ j, j < actions.length → flags.getD j false = true →
      ks.contains (kindStr (actions.getD j default).kind) = true)
    (huniq : ∀ p q, p < actions.length → q < actions.length →
      flags.getD p false = true → flags.getD q false = true →
      kindStr (actions.getD p default).kind
        = kindStr (actions.getD q default).kind → p = q)
    (hi : i < actions.length) (ha : actions.getD i default = a)
    (hkind : ks.contains (kindStr a.kind) = false) :
    (∀ j, j < actions.length → (flags.set i true).getD j false = true →
      (insertKind ks (kindStr a.kind)).contains
        (kindStr (actions.getD j default).kind) = true) ∧
    (∀ p q, p < actions.length → q < actions.length →
      (flags.set i true).getD p false = true →
      (flags.set i true).getD q false = true →
      kindStr (actions.getD p default).kind
        = kindStr (actions.getD q default).kind → p = q) := by
  constructor
  · intro j hj hfj
    by_cases hij : i = j
    · subst hij
      rw [ha]
      exact contains_insertKind_self ..
    · rw [getD_set_ne_eq _ i j hij] at hfj
      exact contains_insertKind_of _ _ _ (hcov j hj hfj)
  · intro p q hp hq hfp hfq hk
    by_cases hip : i = p <;> by_cases hiq : i = q
    · rw [← hip, ← hiq]
    · subst hip
      rw [getD_set_ne_eq _ i q hiq] at hfq
      rw [ha] at hk
      have := hcov q hq hfq
      rw [← hk] at this
      exact absurd this (by simpa using hkind)
    · subst hiq
      rw [getD_set_ne_eq _ i p hip] at hfp
      rw [ha] at hk
      have := hcov p hp hfp
      rw [hk] at this
      exact absurd this (by simpa using hkind)
    · rw [getD_set_ne_eq _ i p hip] at hfp
      rw [getD_set_ne_eq _ i q hiq] at hfq
      exact huniq p q hp hq hfp hfq hk

/-- The check_idle loop preserves flag-vector length, kind coverage and
kind uniqueness: it only fires actions whose kind is not yet active and
records the kind when it does. -/
theorem checkIdleGo_preserves_inv (cap : Option BrightnessState)
    (now elapsed : Nat) :
    ∀ (L : List (Nat × IdleAction)) (t : LegacyIdleTimer),
      (∀ p ∈ L, p.1 < t.actions.length ∧
        t.actions.getD p.1 default = p.2) →
      t.is_idle_flags.length = t.actions.length →
      Covered t → KindUnique t →
      ((LegacyIdleTimer.checkIdleGo cap now elapsed L t).1.is_idle_flags.length
          = (LegacyIdleTimer.checkIdleGo cap now elapsed L t).1.actions.length ∧
        Covered (LegacyIdleTimer.checkIdleGo cap now elapsed L t).1 ∧
        KindUnique (LegacyIdleTimer.checkIdleGo cap now elapsed L t).1)
  | [], t, _, hlen, hcov, huniq => ⟨hlen, hcov, huniq⟩
  | (i, a) :: rest, t, HL, hlen, hcov, huniq => by
    rw [LegacyIdleTimer.checkIdleGo]
    split
    · exact checkIdleGo_preserves_inv cap now elapsed rest t
        (fun p hp => HL p (List.mem_cons_of_mem _ hp)) hlen hcov huniq
    · rename_i hskip
      split
      · split
        · split
          · exact ⟨hlen, hcov, huniq⟩
          · obtain ⟨hi, ha⟩ := HL (i, a) (List.mem_cons_self ..)
            have hkindfalse :
                t.active_kinds.contains (kindStr a.kind) = false := by
              revert hskip
              simp only [Bool.or_eq_true, not_or, Bool.not_eq_true]
              intro hskip
              exact hskip.2
            have hstep := kind_inv_step t.actions t.is_idle_flags
              t.active_kinds i a hcov huniq hi ha hkindfalse
            obtain ⟨pb, so, heq⟩ := LegacyIdleTimer.dispatchAction_state cap
              i a { t with idle_debounce_until := none }
            apply checkIdleGo_preserves_inv cap now elapsed rest
            · intro p hp
              rw [heq]
              exact HL p (List.mem_cons_of_mem _ hp)
            · rw [heq]
              simp only [List.length_set]
              exact hlen
            · rw [heq]
              exact hstep.1
            · rw [heq]
              exact hstep.2
        · exact ⟨hlen, hcov, huniq⟩
      · exact checkIdleGo_preserves_inv cap now elapsed rest t
          (fun p hp => HL p (List.mem_cons_of_mem _ hp)) hlen hcov huniq

/-- C2 amended: `check_idle` preserves kind uniqueness — if every fired
kind is recorded in `active_kinds` and at most one action per kind is
fired, the same holds after any `check_idle` call, because the loop skips
any action whose kind is already active and records the kind it fires.
But `trigger_instant_actions`, `trigger_idle` and `mark_all_idle` set
fired flags without consulting `active_kinds`, so with two ladder actions
of the same kind the bound |fired per kind| ≤ 1 is not an invariant of
every reachable state. -/
theorem c2_kind_uniqueness_amended (cap : Option BrightnessState)
    (now : Nat) (t : LegacyIdleTimer)
    (hlen : t.is_idle_flags.length = t.actions.length)
    (hcov : Covered t) (huniq : KindUnique t) :
    Covered (t.check_idle cap now).1 ∧
    KindUnique (t.check_idle cap now).1 := by
  rw [LegacyIdleTimer.check_idle]
  split
  · exact ⟨hcov, huniq⟩
  · split
    · split
      · exact ⟨hcov, huniq⟩
      · have h := checkIdleGo_preserves_inv cap now
          (LegacyIdleTimer.elapsed_idle now { t with debounce_until := none })
          ({ t with debounce_until := none } :
            LegacyIdleTimer).actions.enum
          { t with debounce_until := none }
          (fun p hp => mem_enum_data _ _ hp) hlen hcov huniq
        exact ⟨h.2.1, h.2.2⟩
    · have h := checkIdleGo_preserves_inv cap now
        (LegacyIdleTimer.elapsed_idle now t) t.actions.enum t
        (fun p hp => mem_enum_data _ _ hp) hlen hcov huniq
      exact ⟨h.2.1, h.2.2⟩

theorem getD_pair_false :
    ∀ (j : Nat), ([false, false] : List Bool).getD j false = false
  | 0 => rfl
  | 1 => rfl
  | _ + 2 => rfl

/-- Every index of the startup flag vector of `tC5` reads false. -/
theorem tC5_flags_all_false (j : Nat) :
    tC5.is_idle_flags.getD j false = false := by
  rw [show tC5.is_idle_flags = [false, false] from by decide]
  exact getD_pair_false j

/-- No action of `tC5` is fired. -/
theorem tC5_not_fired (j : Nat) : firedAt tC5 j = false :=
  tC5_flags_all_false j

/-- Witness for the amended C2 on a concrete fresh-episode timer on which
`check_idle` actually dispatches. -/
theorem c2_kind_uniqueness_amended_witness :
    tC5.is_idle_flags.length = tC5.actions.length ∧
    (Covered (tC5.check_idle none 100).1 ∧
      KindUnique (tC5.check_idle none 100).1) :=
  ⟨by decide,
    c2_kind_uniqueness_amended none 100 tC5 (by decide)
      (fun j _ hf => absurd hf (by simp [tC5_not_fired j]))
      (fun p q _ _ hfp _ _ =>
        absurd hfp (by simp [tC5_not_fired p]))⟩

/-! ## C3: compositor precedence -/

/-- Compositor-managed timer with its idle debounce already expired, as
produced by `wayland::setup` binding the idle notifier. -/
def tC3 : LegacyIdleTimer :=
  (bindCompositor { tA with idle_debounce_until := some 3 }).1

/-- C3: the claim matches the spec intent, but the code inverts the guard.
`wayland::setup` sets `compositor_managed = true` exactly when the idle
notification is created, and the notification handler returns early when
`is_compositor_managed()` — so on the only configuration in which Idled
and Resumed events arrive, the handler never calls `mark_all_idle`,
`trigger_idle` or `reset`; meanwhile `check_idle` never consults
`compositor_managed` and keeps dispatching actions the compositor did not
cause. -/
theorem c3_compositor_precedence_code_bug :
    tC3.compositor_managed = true ∧
    handleIdleEvent false 0 100 IdleEvent.idled tC3 = (tC3, []) ∧
    handleIdleEvent false 0 100 IdleEvent.resumed tC3 = (tC3, []) ∧
    tC3.is_idle_flags = [false, false] ∧
    dispatchList (tC3.check_idle none 100).2 =
      [(0, ⟨5, "cmdA", IdleActionKind.custom⟩)] := by
  decide

end Stasis
